import Mathlib

/- Shallow embedding of the mp3-transcriber request pipeline:
   `src/app/transcription.py` (validator, save stage, batch orchestrator,
   archive builder, request handler) and `src/app/tasks.py` (storage reaper).
   Python strings are modelled as Lean `String`s operated on through their
   character lists, which matches Python's character-based indexing/slicing.
   Filesystem effects are modelled by recording, in a trace, which paths are
   written, whether the per-request directory was created, and whether it was
   deleted; the external transcription provider is an oracle in the
   environment, keyed by saved-file path. -/

/-- Index of the last occurrence of a character in a character list
(Python `str.rfind`, with `none` in place of `-1`). -/
def rfindPos (c : Char) : List Char → Option Nat
  | [] => none
  | x :: xs =>
    match rfindPos c xs with
    | some j => some (j + 1)
    | none => if x = c then some 0 else none

/-- Remove trailing path separators (pathlib drops empty trailing parts). -/
def stripTrailingSlashes (l : List Char) : List Char :=
  (l.reverse.dropWhile (fun c => c = '/')).reverse

/-- Final path component (pathlib `Path(p).name`, POSIX flavour). -/
def lastComponent (p : List Char) : List Char :=
  let q := stripTrailingSlashes p
  match rfindPos '/' q with
  | none => q
  | some j => q.drop (j + 1)

/-- pathlib `Path(s).suffix`: the extension of the final component — the part
from the last dot on, provided that dot is neither the first nor the last
character of the component. -/
def pathSuffix (s : String) : String :=
  let nm := lastComponent s.data
  match rfindPos '.' nm with
  | none => ""
  | some i => if 0 < i ∧ i + 1 < nm.length then String.mk (nm.drop i) else ""

/-- Python `str.lower` (character-wise). -/
def strLower (s : String) : String :=
  String.mk (s.data.map Char.toLower)

/-- Python `str.strip()` with no arguments: remove leading and trailing
whitespace. -/
def strTrim (s : String) : String :=
  String.mk ((s.data.dropWhile Char.isWhitespace).reverse.dropWhile Char.isWhitespace).reverse

/-- Python slicing `s[n:]` (character-based). -/
def strDrop (s : String) (n : Nat) : String :=
  String.mk (s.data.drop n)

/-- Python `"sep".join(l)`. -/
def strJoin (sep : String) : List String → String
  | [] => ""
  | [x] => x
  | x :: y :: ys => x ++ sep ++ strJoin sep (y :: ys)

/-- Predicate: `small` occurs contiguously inside `big` (Python's `small in big`). -/
def strContains (big small : String) : Prop :=
  small.data <:+: big.data

instance (big small : String) : Decidable (strContains big small) := by
  unfold strContains
  infer_instance

/-- Whether a path string begins with the POSIX separator. -/
def startsWithSlash (s : String) : Bool :=
  match s.data with
  | [] => false
  | c :: _ => c = '/'

/-- Whether a path string ends with the POSIX separator. -/
def endsWithSlash (s : String) : Bool :=
  match s.data.getLast? with
  | none => false
  | some c => c = '/'

/-- Model of `os.path.join(a, b)` (POSIX, two arguments): an absolute `b` discards `a`;
otherwise `a` and `b` are joined with a single separator. -/
def ospath_join (a b : String) : String :=
  if startsWithSlash b then b
  else if a = "" ∨ endsWithSlash a then a ++ b
  else a ++ "/" ++ b

/-- Model of `os.path.splitext(p)` (POSIX): split at the last dot when that dot comes
after the last separator and some character of the final component before it
is not a dot (so leading dots of a basename never start an extension). -/
def splitext (p : List Char) : List Char × List Char :=
  match rfindPos '.' p with
  | none => (p, [])
  | some d =>
    let fStart := match rfindPos '/' p with
      | none => 0
      | some sI => sI + 1
    if fStart ≤ d ∧ ((p.drop fStart).take (d - fStart)).any (fun c => c ≠ '.') then
      (p.take d, p.drop d)
    else (p, [])

/-- The root part of `os.path.splitext` as a string operation. -/
def splitextStem (s : String) : String :=
  String.mk (splitext s.data).1

/-- Constant `MAX_FILES_LIMIT` from `transcription.py`. -/
def MAX_FILES_LIMIT : Nat := 5

/-- Constant `MAX_FILE_SIZE` from `transcription.py` (100 MB). -/
def MAX_FILE_SIZE : Nat := 100 * 1024 * 1024

/-- Keys of `SUPPORTED_LANGUAGES` from `transcription.py`. -/
def SUPPORTED_LANGUAGES : List String := ["en", "pt"]

/-- Constant `TEMP_DIR` from `tasks.py`. -/
def TEMP_DIR : String := "/tmp/transcriber_runs"

/-- Constant `MAX_AGE_SECONDS` from `tasks.py` (5 minutes). -/
def MAX_AGE_SECONDS : Int := 5 * 60

/-- One uploaded multipart item as the handler sees it: the client-supplied
filename, the declared media type (`UploadFile.content_type`), and the byte
count of the stream (what `file.file.seek(END); file.file.tell()` and the
chunked copy in `save_file` both observe). -/
structure UploadFile where
  filename : Option String
  content_type : Option String
  size : Nat
deriving DecidableEq, Repr

/-- How a Python f-string renders an optional string (`None` prints as
`"None"`). -/
def ctRepr : Option String → String
  | none => "None"
  | some s => s

/-- Model of `validate_file` from `transcription.py`: returns `some errorMessage` for a
rejected item and `none` for an accepted one. Checks, in source order:
filename presence and allowed extension; declared MIME type, with an override
that accepts any MIME type when the (truthy) filename has extension `.mp3`;
size against `MAX_FILE_SIZE`. (The final `filename is None` re-check in the
source is unreachable because the extension check already returned.) -/
def validate_file (file : UploadFile) : Option String :=
  match file.filename with
  | none => some "File has no filename"
  | some name =>
    let ext := strLower (pathSuffix name)
    if ¬ (ext = ".mp3" ∨ ext = ".mpeg") then
      some ("File " ++ name ++ " has invalid extension: " ++ ext)
    else if ¬ (file.content_type = some "audio/mpeg" ∨ file.content_type = some "audio/mp3")
        ∧ ¬ (name ≠ "" ∧ strLower (pathSuffix name) = ".mp3") then
      some ("File " ++ name ++ " has invalid MIME type: " ++ ctRepr file.content_type)
    else if file.size > MAX_FILE_SIZE then
      some ("File " ++ name ++ " exceeds maximum size of 100.0 MB")
    else
      none

/-- Model of `save_file` from `transcription.py`: writes the stream to
`os.path.join(run_path, filename)` and returns the saved path paired with
`(index, stem + ".txt")`; returns `(none, none)` when the filename is absent
or zero bytes were written. -/
def save_file (file : UploadFile) (run_path : String) (index : Nat) :
    Option String × Option (Nat × String) :=
  match file.filename with
  | none => (none, none)
  | some name =>
    let file_path := ospath_join run_path name
    if file.size = 0 then (none, none)
    else (some file_path, some (index, splitextStem name ++ ".txt"))

/-- Outcome of one transcription task as captured by
`asyncio.gather(..., return_exceptions=True)`: transcript text or a captured
exception message. -/
inductive TResult where
  | ok (text : String)
  | err (msg : String)
deriving DecidableEq, Repr

/-- Model of `create_zip_response` from `transcription.py`, as the list of archive
entries `(entryName, content)` it writes: iterating the transcription results
with `enumerate`, a captured exception always yields an `error_*` entry (with
a synthesized name when the position has no output filename), a transcript
yields an entry only when the position is a key of `output_filenames`, and
any other combination writes nothing. -/
def create_zip_response (results : List TResult)
    (output_filenames : List (Nat × String)) : List (String × String) :=
  results.enum.filterMap fun p =>
    match p.2 with
    | TResult.err m =>
      some ("error_" ++ ((output_filenames.lookup p.1).getD
              ("file_" ++ toString p.1 ++ ".txt")),
            "Transcription failed: " ++ m)
    | TResult.ok t =>
      match output_filenames.lookup p.1 with
      | some txt_filename => some (txt_filename, strTrim t)
      | none => none

/-- An `HTTPException` as raised by the handler: status code and detail. -/
structure HttpError where
  status : Nat
  detail : String
deriving DecidableEq, Repr

/-- Result of `validate_request_data`: a batch-fatal `HTTPException` or the
extracted API key. -/
inductive AuthResult where
  | fatal (e : HttpError)
  | key (api_key : String)
deriving DecidableEq, Repr

/-- Detail string of the missing/malformed credential error. -/
def authDetail : String :=
  "API key must be provided in the Authorization header as \x27Bearer <api_key>\x27"

/-- Model of `validate_request_data` from `transcription.py`: file-count cap, supported
language, and well-formed `Bearer` authorization header, in source order; on
success returns `authorization[7:]`. -/
def validate_request_data (files : List UploadFile) (language : String)
    (authorization : Option String) : AuthResult :=
  if files.length > MAX_FILES_LIMIT then
    AuthResult.fatal ⟨400, "A maximum of 5 files can be processed at once."⟩
  else if ¬ (language ∈ SUPPORTED_LANGUAGES) then
    AuthResult.fatal ⟨400, "Unsupported language selected."⟩
  else
    match authorization with
    | none => AuthResult.fatal ⟨400, authDetail⟩
    | some a =>
      if List.isPrefixOf "Bearer ".data a.data then AuthResult.key (strDrop a 7)
      else AuthResult.fatal ⟨400, authDetail⟩

/-- The validation loop of `process_files`: walking the enumerated batch,
collect the validation error messages (in order) and the accepted
`(index, file)` pairs (in order). -/
def scanFiles : Nat → List UploadFile → List String × List (Nat × UploadFile)
  | _, [] => ([], [])
  | i, f :: fs =>
    let rest := scanFiles (i + 1) fs
    match validate_file f with
    | some e => (e :: rest.1, rest.2)
    | none => (rest.1, (i, f) :: rest.2)

/-- Successful result of `process_files`: the saved file paths (in save order),
the `output_filenames` map entries (original index → output name, in save
order), the validation error messages, and the paths at which `save_file`
opened a file for writing (it writes before checking for emptiness). -/
structure ProcOut where
  saved_files : List String
  output_filenames : List (Nat × String)
  validation_errors : List String
  writes : List String
deriving DecidableEq, Repr

/-- Result of `process_files`: a batch-fatal `HTTPException` or a `ProcOut`. -/
inductive PFResult where
  | fatal (e : HttpError)
  | ok (out : ProcOut)
deriving DecidableEq, Repr

/-- Model of `process_files` from `transcription.py`: validate every item; if there is
at least one validation error and every item produced one, raise the
aggregated `NoValidItems` 400 before any save happens; otherwise run
`save_file` for every accepted item (gather preserves submission order) and
keep the path and `(index, name)` pair of every save whose two components are
truthy. -/
def process_files (files : List UploadFile) (run_path : String) : PFResult :=
  let scanned := scanFiles 0 files
  let validation_errors := scanned.1
  let accepted := scanned.2
  if validation_errors ≠ [] ∧ validation_errors.length = files.length then
    PFResult.fatal ⟨400, "No valid MP3 files were provided. Errors: "
      ++ strJoin "; " validation_errors⟩
  else
    let save_results := accepted.map (fun p => save_file p.2 run_path p.1)
    let saved_files := save_results.filterMap (fun r =>
      match r with
      | (some fp, some _) => if fp ≠ "" then some fp else none
      | _ => none)
    let output_filenames := save_results.filterMap (fun r =>
      match r with
      | (some fp, some io) => if fp ≠ "" then some io else none
      | _ => none)
    let writes := accepted.filterMap (fun p =>
      p.2.filename.map (fun n => ospath_join run_path n))
    PFResult.ok ⟨saved_files, output_filenames, validation_errors, writes⟩

/-- Per-request environment: the generated run identifier, whether
`OpenAI(api_key=...)` construction raises (`create_client`), the provider
oracle giving each saved path's transcription outcome, and an optional
unexpected internal fault inside the handler's `try` block. -/
structure Env where
  runId : String
  clientError : Option String
  oracle : String → TResult
  unexpected : Option String

/-- Response of one `handle_transcription` call: the raised `HTTPException`
or the archive entries of the returned `FileResponse` zip. -/
inductive HandlerResult where
  | err (e : HttpError)
  | ok (entries : List (String × String))
deriving DecidableEq, Repr

/-- Observable outcome of one `handle_transcription` call: whether the
per-request directory was created, whether the handler deleted it before
returning, which paths were written, which saved paths were sent for
transcription, and the response (archive entries on success, the raised
`HTTPException` otherwise). -/
structure RunTrace where
  dirCreated : Bool
  dirDeleted : Bool
  savedPaths : List String
  transcribeCalls : List String
  response : HandlerResult
deriving DecidableEq, Repr

/-- Model of `handle_transcription` from `transcription.py`, in source order: default
`files` to `[]`; `validate_request_data` (raises before the run directory is
created); create the run directory under `TEMP_DIR`; `create_client` — its
failure raises *outside* the `try`/`finally`, so nothing deletes the
directory on that path; then, inside the `try`, `process_files`, the
transcription fan-out via `gather(return_exceptions=True)`, and
`create_zip_response`; any exception inside the `try` reaches `finally` with
`cleanup_needed` still true, deleting the directory; on success
`cleanup_needed` is cleared before returning the archive. -/
def handle_transcription (env : Env) (files : Option (List UploadFile))
    (language : String) (authorization : Option String) : RunTrace :=
  let fs := files.getD []
  match validate_request_data fs language authorization with
  | AuthResult.fatal e => ⟨false, false, [], [], HandlerResult.err e⟩
  | AuthResult.key _ =>
    let run_path := ospath_join TEMP_DIR env.runId
    match env.clientError with
    | some _ =>
      ⟨true, false, [], [], HandlerResult.err ⟨400, "Invalid OpenAI API Key format."⟩⟩
    | none =>
      match process_files fs run_path with
      | PFResult.fatal e => ⟨true, true, [], [], HandlerResult.err e⟩
      | PFResult.ok out =>
        match env.unexpected with
        | some m =>
          ⟨true, true, out.writes, [],
            HandlerResult.err ⟨500, "Processing failed: " ++ m⟩⟩
        | none =>
          let results := out.saved_files.map env.oracle
          let entries := create_zip_response results out.output_filenames
          ⟨true, false, out.writes, out.saved_files, HandlerResult.ok entries⟩

/-- One immediate child of the temp root as the reaper sees it: its name,
whether it is a directory, and its modification time (seconds). -/
structure DirEntry where
  name : String
  isDir : Bool
  mtime : Int
deriving DecidableEq, Repr

/-- State of the shared temp root: whether it exists and its immediate
children. -/
structure TempRootState where
  rootExists : Bool
  children : List DirEntry
deriving DecidableEq, Repr

/-- The reaper's per-child deletion test from `cleanup_old_files`: a directory
whose mtime is strictly older than `now - MAX_AGE_SECONDS`. -/
def shouldDelete (now : Int) (e : DirEntry) : Bool :=
  e.isDir && decide (e.mtime < now - MAX_AGE_SECONDS)

/-- Model of `cleanup_old_files` from `tasks.py`: a no-op when `TEMP_DIR` does not
exist; otherwise every listed child that is a directory older than the
threshold is recursively deleted. -/
def cleanup_old_files (now : Int) (s : TempRootState) : TempRootState :=
  if s.rootExists then
    { s with children := s.children.filter (fun e => !(shouldDelete now e)) }
  else s

/-- The children one sweep of `cleanup_old_files` deletes. -/
def sweepDeletions (now : Int) (s : TempRootState) : List DirEntry :=
  if s.rootExists then s.children.filter (shouldDelete now) else []


/-- Rebuilding a string from its character list is the identity. -/
theorem strMk_data (s : String) : String.mk s.data = s := by
  cases s
  rfl

/-- Lemma: `rfindPos` finds nothing when the character does not occur. -/
theorem rfindPos_eq_none (c : Char) : ∀ (l : List Char), c ∉ l → rfindPos c l = none
  | [], _ => rfl
  | x :: xs, h => by
    have hx : ¬ (x = c) := fun he => h (he ▸ List.mem_cons_self x xs)
    have hxs : c ∉ xs := fun hm => h (List.mem_cons_of_mem x hm)
    simp [rfindPos, rfindPos_eq_none c xs hxs, hx]

/-- Lemma: `rfindPos` locates the last occurrence: when `c` does not occur in `r`,
the last `c` of `l ++ c :: r` sits at index `l.length`. -/
theorem rfindPos_append_cons (c : Char) : ∀ (l r : List Char), c ∉ r →
    rfindPos c (l ++ c :: r) = some l.length
  | [], r, h => by simp [rfindPos, rfindPos_eq_none c r h]
  | x :: l, r, h => by
    simp [rfindPos, rfindPos_append_cons c l r h]

/-- Every element of the joined list occurs contiguously in the join. -/
theorem mem_strJoin_isInfix (sep : String) :
    ∀ (l : List String) (e : String), e ∈ l → e.data <:+: (strJoin sep l).data
  | [], e, h => absurd h (List.not_mem_nil e)
  | [x], e, h => by
    rw [List.mem_singleton] at h
    subst h
    simp [strJoin]
  | x :: y :: ys, e, h => by
    rw [List.mem_cons] at h
    rcases h with rfl | h
    · exact ⟨[], sep.data ++ (strJoin sep (y :: ys)).data, by simp [strJoin]⟩
    · exact (mem_strJoin_isInfix sep (y :: ys) e h).trans
        ⟨x.data ++ sep.data, [], by simp [strJoin]⟩

/-- Every validation error message of a batch member ends up in the error
list collected by the validation loop. -/
theorem scanFiles_mem_error :
    ∀ (fs : List UploadFile) (i : Nat) (f : UploadFile) (e : String),
      f ∈ fs → validate_file f = some e → e ∈ (scanFiles i fs).1
  | [], _, _, _, hmem, _ => absurd hmem (List.not_mem_nil _)
  | g :: gs, i, f, e, hmem, hval => by
    rw [List.mem_cons] at hmem
    rcases hmem with rfl | hmem
    · simp [scanFiles, hval]
    · have ih := scanFiles_mem_error gs (i + 1) f e hmem hval
      cases hv : validate_file g <;> simp [scanFiles, hv, ih]

/-- When every batch member is rejected, the validation loop collects one
error per member and accepts nothing. -/
theorem scanFiles_all_rejected :
    ∀ (fs : List UploadFile) (i : Nat), (∀ f ∈ fs, validate_file f ≠ none) →
      (scanFiles i fs).1.length = fs.length ∧ (scanFiles i fs).2 = []
  | [], _, _ => by simp [scanFiles]
  | g :: gs, i, h => by
    have hg := h g (List.mem_cons_self g gs)
    have ih := scanFiles_all_rejected gs (i + 1)
      (fun f hf => h f (List.mem_cons_of_mem g hf))
    cases hv : validate_file g with
    | none => exact absurd hv hg
    | some e => simp [scanFiles, hv, ih.1, ih.2]

/-- Under the batch-fatal preconditions, `validate_request_data` extracts the
API key from the `Bearer` header. -/
theorem validate_request_data_key (fs : List UploadFile) (language : String) (a : String)
    (hlen : fs.length ≤ MAX_FILES_LIMIT) (hlang : language ∈ SUPPORTED_LANGUAGES)
    (hbear : List.isPrefixOf "Bearer ".data a.data = true) :
    validate_request_data fs language (some a) = AuthResult.key (strDrop a 7) := by
  unfold validate_request_data
  rw [if_neg (by omega), if_neg (not_not_intro hlang)]
  simp [hbear]

/-- When the batch is nonempty and every member is rejected, `process_files`
raises the aggregated 400 whose detail joins all the rejection reasons. -/
theorem process_files_all_rejected (fs : List UploadFile) (rp : String)
    (hne : fs ≠ []) (hrej : ∀ f ∈ fs, validate_file f ≠ none) :
    process_files fs rp = PFResult.fatal ⟨400,
      "No valid MP3 files were provided. Errors: " ++ strJoin "; " (scanFiles 0 fs).1⟩ := by
  have h := scanFiles_all_rejected fs 0 hrej
  have hne' : (scanFiles 0 fs).1 ≠ [] := by
    intro hx
    apply hne
    have hlen := h.1
    rw [hx] at hlen
    exact List.length_eq_zero.mp hlen.symm
  unfold process_files
  rw [if_pos ⟨hne', h.1⟩]

/-- Claim C3: for every batch in which every item is rejected by validation,
processing fails batch-fatally with the NoValidItems error (HTTP 400), the
error detail contains every individual rejection reason as a substring, and
no partial output is produced: nothing is saved, no transcription call is
made, and no archive is built (the error response carries no entries). -/
theorem claim_C3_all_rejected (env : Env) (fs : List UploadFile)
    (language : String) (a : String)
    (hne : fs ≠ []) (hlen : fs.length ≤ MAX_FILES_LIMIT)
    (hlang : language ∈ SUPPORTED_LANGUAGES)
    (hbear : List.isPrefixOf "Bearer ".data a.data = true)
    (hclient : env.clientError = none)
    (hrej : ∀ f ∈ fs, validate_file f ≠ none) :
    ∃ detail : String,
      handle_transcription env (some fs) language (some a)
        = ⟨true, true, [], [], HandlerResult.err ⟨400, detail⟩⟩
      ∧ ∀ f ∈ fs, ∀ e, validate_file f = some e → strContains detail e := by
  refine ⟨"No valid MP3 files were provided. Errors: "
    ++ strJoin "; " (scanFiles 0 fs).1, ?_, ?_⟩
  · simp only [handle_transcription, Option.getD_some,
      validate_request_data_key fs language a hlen hlang hbear,
      hclient, process_files_all_rejected fs _ hne hrej]
  · intro f hf e he
    have hmem := scanFiles_mem_error fs 0 f e hf he
    have hinf := mem_strJoin_isInfix "; " (scanFiles 0 fs).1 e hmem
    exact hinf.trans
      ⟨"No valid MP3 files were provided. Errors: ".data, [], by simp⟩

/-- Witness for claim C3 at a concrete one-item batch whose only item has a
disallowed extension. -/
theorem claim_C3_witness :
    ∃ detail : String,
      handle_transcription ⟨"runW", none, fun _ => TResult.ok "", none⟩
          (some [⟨some "b.wav", some "audio/mpeg", 10⟩]) "en" (some "Bearer k")
        = ⟨true, true, [], [], HandlerResult.err ⟨400, detail⟩⟩
      ∧ ∀ f ∈ [(⟨some "b.wav", some "audio/mpeg", 10⟩ : UploadFile)],
          ∀ e, validate_file f = some e → strContains detail e :=
  claim_C3_all_rejected ⟨"runW", none, fun _ => TResult.ok "", none⟩ _ _ _
    (by decide) (by decide) (by decide) (by decide) rfl (by decide)

/-- Claim C4: for every batch whose item count exceeds `MAX_FILES_LIMIT` (5),
the handler fails with the 400 TooManyItems error before any save or
transcription call, and no per-request directory is created at all (which is
the stronger of the claim's two alternatives). -/
theorem claim_C4_too_many_files (env : Env) (files : Option (List UploadFile))
    (language : String) (authorization : Option String)
    (hcount : (files.getD []).length > MAX_FILES_LIMIT) :
    handle_transcription env files language authorization
      = ⟨false, false, [], [], HandlerResult.err
          ⟨400, "A maximum of 5 files can be processed at once."⟩⟩ := by
  simp only [handle_transcription, validate_request_data]
  rw [if_pos hcount]

/-- Witness for claim C4 at a concrete batch of six items. -/
theorem claim_C4_witness :
    handle_transcription ⟨"runW", none, fun _ => TResult.ok "", none⟩
        (some (List.replicate 6 ⟨some "a.mp3", some "audio/mpeg", 1⟩))
        "en" (some "Bearer k")
      = ⟨false, false, [], [], HandlerResult.err
          ⟨400, "A maximum of 5 files can be processed at once."⟩⟩ :=
  claim_C4_too_many_files _ _ _ _ (by decide)

/-- Claim C10: a request with zero file parts (the `files` field absent or
empty), a supported language and a well-formed Bearer credential is not
rejected as having no valid items: the handler succeeds and returns an
archive with zero entries. -/
theorem claim_C10_empty_batch (env : Env) (files : Option (List UploadFile))
    (language : String) (a : String)
    (hfiles : files = none ∨ files = some [])
    (hlang : language ∈ SUPPORTED_LANGUAGES)
    (hbear : List.isPrefixOf "Bearer ".data a.data = true)
    (hclient : env.clientError = none) (hunexp : env.unexpected = none) :
    handle_transcription env files language (some a)
      = ⟨true, false, [], [], HandlerResult.ok []⟩ := by
  have hfd : files.getD [] = [] := by rcases hfiles with rfl | rfl <;> rfl
  simp only [handle_transcription, hfd,
    validate_request_data_key [] language a (by decide) hlang hbear, hclient]
  simp [process_files, scanFiles, hunexp, create_zip_response]

/-- Witness for claim C10 at a concrete request with no `files` field. -/
theorem claim_C10_witness :
    handle_transcription ⟨"runW", none, fun _ => TResult.ok "", none⟩
        none "en" (some "Bearer k")
      = ⟨true, false, [], [], HandlerResult.ok []⟩ :=
  claim_C10_empty_batch ⟨"runW", none, fun _ => TResult.ok "", none⟩ _ _ _
    (Or.inl rfl) (by decide) (by decide) rfl rfl

/-- Claim C7: the reaper sweep is idempotent — with nothing created or
modified between two sweeps taken at the same instant, the second sweep
deletes nothing and leaves the state unchanged; a sweep is a no-op when the
temp root does not exist; and a sweep deletes exactly the immediate children
that are directories whose mtime is strictly older than `now -
MAX_AGE_SECONDS`, keeping precisely the others. -/
theorem claim_C7_reaper_sweep :
    ∀ (now : Int) (s : TempRootState) (children : List DirEntry),
      cleanup_old_files now (cleanup_old_files now s) = cleanup_old_files now s
      ∧ sweepDeletions now (cleanup_old_files now s) = []
      ∧ cleanup_old_files now ⟨false, children⟩ = ⟨false, children⟩
      ∧ (cleanup_old_files now ⟨true, children⟩).children
          = children.filter (fun e => !(shouldDelete now e))
      ∧ ∀ e : DirEntry, e ∈ (cleanup_old_files now ⟨true, children⟩).children
          ↔ e ∈ children ∧ shouldDelete now e = false := by
  intro now s children
  refine ⟨?_, ?_, ?_, ?_, ?_⟩
  · cases s with
    | mk re ch =>
      cases re <;> simp [cleanup_old_files, List.filter_filter]
  · cases s with
    | mk re ch =>
      cases re <;> simp [cleanup_old_files, sweepDeletions, List.filter_filter]
  · simp [cleanup_old_files]
  · simp [cleanup_old_files]
  · intro e
    simp [cleanup_old_files, List.mem_filter]

/-- Claim C6: for every successfully saved upload item whose filename splits
as `stem ++ "." ++ ext` (a genuine extension: no dot or separator inside
`ext`, no separator in the stem, and a non-dot character in the stem), the
derived output filename is `stem ++ ".txt"` — the extension, and hence its
casing, does not influence the output name. -/
theorem claim_C6_output_name (file : UploadFile) (run_path : String) (index : Nat)
    (s b : String)
    (hname : file.filename = some (s ++ "." ++ b))
    (hsz : file.size ≠ 0)
    (hbdot : '.' ∉ b.data)
    (hslash : '/' ∉ s.data ++ '.' :: b.data)
    (hsnotdot : ∃ c ∈ s.data, c ≠ '.') :
    save_file file run_path index
      = (some (ospath_join run_path (s ++ "." ++ b)), some (index, s ++ ".txt")) := by
  have hdata : (s ++ "." ++ b).data = s.data ++ '.' :: b.data := by
    simp
  have hstem : splitextStem (s ++ "." ++ b) = s := by
    unfold splitextStem splitext
    rw [hdata, rfindPos_append_cons '.' s.data b.data hbdot,
      rfindPos_eq_none '/' _ hslash]
    have hany : (s.data.any fun c => decide (c ≠ '.')) = true := by
      rcases hsnotdot with ⟨c, hc, hcne⟩
      exact List.any_eq_true.mpr ⟨c, hc, by simpa using hcne⟩
    simp only [Nat.sub_zero, List.drop_zero, Nat.zero_le, true_and, List.take_left,
      hany, if_true]
  unfold save_file
  rw [hname]
  simp only [if_neg hsz, hstem]

/-- Witness for claim C6 at the filename `a.MP3` (upper-case extension):
the output name is `a.txt`. -/
theorem claim_C6_witness :
    save_file ⟨some "a.MP3", some "audio/mpeg", 3⟩ "/tmp/transcriber_runs/runW" 0
      = (some "/tmp/transcriber_runs/runW/a.MP3", some (0, "a.txt")) :=
  (claim_C6_output_name ⟨some "a.MP3", some "audio/mpeg", 3⟩
    "/tmp/transcriber_runs/runW" 0 "a" "MP3" (by decide) (by decide)
    (by decide) (by decide) (by decide)).trans (by decide)

/-- Counterexample to claim C5 as stated: the item `a.mpeg` has a filename
with an extension in the allowed set and a declared size within the maximum,
yet with the media type `text/plain` the validator rejects it — the `.mpeg`
extension does not override a disallowed MIME type. -/
theorem claim_C5_counterexample :
    strLower (pathSuffix "a.mpeg") = ".mpeg"
    ∧ (0 : Nat) ≤ MAX_FILE_SIZE
    ∧ validate_file ⟨some "a.mpeg", some "text/plain", 0⟩
        = some "File a.mpeg has invalid MIME type: text/plain" := by
  decide

/-- Claim C5 (amended): for every item with a filename and a declared size
within the maximum, the extension is authoritative over the MIME type only
for `.mp3`: an item whose lower-cased extension is `.mp3` is accepted for
every declared media type, while an item whose lower-cased extension is
`.mpeg` is accepted when its declared media type is `audio/mpeg` or
`audio/mp3` and, for every other declared media type, is rejected with the
invalid-MIME-type error. -/
theorem claim_C5_amended (file : UploadFile) (name : String)
    (hn : file.filename = some name) (hsz : file.size ≤ MAX_FILE_SIZE) :
    (strLower (pathSuffix name) = ".mp3" → validate_file file = none)
    ∧ (strLower (pathSuffix name) = ".mpeg" →
        (file.content_type = some "audio/mpeg" ∨ file.content_type = some "audio/mp3") →
        validate_file file = none)
    ∧ (strLower (pathSuffix name) = ".mpeg" →
        ¬ (file.content_type = some "audio/mpeg" ∨ file.content_type = some "audio/mp3") →
        validate_file file
          = some ("File " ++ name ++ " has invalid MIME type: " ++ ctRepr file.content_type)) := by
  refine ⟨?_, ?_, ?_⟩
  · intro hext
    have hname : name ≠ "" := by
      intro h0
      rw [h0] at hext
      exact absurd hext (by decide)
    simp only [validate_file, hn]
    rw [if_neg (not_not_intro (Or.inl hext)),
      if_neg (fun hc => hc.2 ⟨hname, hext⟩),
      if_neg (by omega)]
  · intro hext hmime
    simp only [validate_file, hn]
    rw [if_neg (not_not_intro (Or.inr hext)),
      if_neg (fun hc => hc.1 hmime),
      if_neg (by omega)]
  · intro hext hmime
    simp only [validate_file, hn]
    rw [if_neg (not_not_intro (Or.inr hext)),
      if_pos ⟨hmime, fun hc => absurd (hext.symm.trans hc.2) (by decide)⟩]

/-- Witness for the amended claim C5, exercising both directions: `x.mp3`
declared as `text/plain` is accepted, while `y.mpeg` declared as `text/plain`
is rejected with the invalid-MIME-type error. -/
theorem claim_C5_witness :
    validate_file ⟨some "x.mp3", some "text/plain", 0⟩ = none
    ∧ validate_file ⟨some "y.mpeg", some "text/plain", 0⟩
        = some "File y.mpeg has invalid MIME type: text/plain" :=
  ⟨(claim_C5_amended ⟨some "x.mp3", some "text/plain", 0⟩ "x.mp3"
      rfl (by decide)).1 (by decide),
   ((claim_C5_amended ⟨some "y.mpeg", some "text/plain", 0⟩ "y.mpeg"
      rfl (by decide)).2.2 (by decide) (by decide)).trans (by decide)⟩

/-- Claim C1 is violated by the code (code bug): in the accepted batch
`[b.wav, a.mp3]`, index 0 is rejected by validation and index 1 is saved and
transcribed successfully, yet the returned archive has zero entries instead
of two — the rejected item produces no error entry (`validation_errors` is
never passed to the archive builder), and the successful transcript is
dropped because `create_zip_response` looks its position in the saved-files
list (0) up in `output_filenames`, which is keyed by the original batch
index (1). -/
theorem claim_C1_code_bug :
    validate_file ⟨some "b.wav", some "audio/mpeg", 10⟩
        = some "File b.wav has invalid extension: .wav"
    ∧ validate_file ⟨some "a.mp3", some "audio/mpeg", 10⟩ = none
    ∧ [(⟨some "b.wav", some "audio/mpeg", 10⟩ : UploadFile),
        ⟨some "a.mp3", some "audio/mpeg", 10⟩].length = 2
    ∧ handle_transcription ⟨"run1", none, fun _ => TResult.ok "hello", none⟩
        (some [⟨some "b.wav", some "audio/mpeg", 10⟩,
               ⟨some "a.mp3", some "audio/mpeg", 10⟩])
        "en" (some "Bearer k")
      = ⟨true, false, ["/tmp/transcriber_runs/run1/a.mp3"],
         ["/tmp/transcriber_runs/run1/a.mp3"], HandlerResult.ok []⟩ := by
  decide

/-- Claim C2 is violated by the code (code bug): in the accepted batch
`[a.mp3 (empty, its save fails), b.mp3, c.mp3]`, the transcript produced for
the item at index 2 (`textC`) is written under the output name derived from
the filename of the item at index 1 (`b.txt`), and the transcript produced
for index 1 (`textB`) appears nowhere: archive membership is keyed by
position in the saved-files list, not by `sourceIndex`. -/
theorem claim_C2_code_bug :
    handle_transcription
        ⟨"run1", none,
          fun p => if p = "/tmp/transcriber_runs/run1/b.mp3" then TResult.ok "textB"
                   else TResult.ok "textC",
          none⟩
        (some [⟨some "a.mp3", some "audio/mpeg", 0⟩,
               ⟨some "b.mp3", some "audio/mpeg", 5⟩,
               ⟨some "c.mp3", some "audio/mpeg", 7⟩])
        "en" (some "Bearer k")
      = ⟨true, false,
         ["/tmp/transcriber_runs/run1/a.mp3", "/tmp/transcriber_runs/run1/b.mp3",
          "/tmp/transcriber_runs/run1/c.mp3"],
         ["/tmp/transcriber_runs/run1/b.mp3", "/tmp/transcriber_runs/run1/c.mp3"],
         HandlerResult.ok [("b.txt", "textC")]⟩
    ∧ (save_file ⟨some "b.mp3", some "audio/mpeg", 5⟩ "/tmp/transcriber_runs/run1" 1).2
        = some (1, "b.txt") := by
  decide

/-- Claim C8 is violated by the code (code bug): when OpenAI client
construction fails, the handler raises the 400 "Invalid OpenAI API Key
format." error *after* the per-request directory has been created but
*outside* the `try`/`finally` that performs cleanup, so on this error exit
path the directory is created and never deleted before the handler
returns. -/
theorem claim_C8_code_bug :
    handle_transcription ⟨"run1", some "boom", fun _ => TResult.ok "", none⟩
        (some [⟨some "a.mp3", some "audio/mpeg", 10⟩]) "en" (some "Bearer k")
      = ⟨true, false, [], [],
         HandlerResult.err ⟨400, "Invalid OpenAI API Key format."⟩⟩ := by
  decide

/-- Claim C9 is violated by the code (code bug): the client-supplied absolute
filename `/etc/passwd.mp3` passes validation (its extension is `.mp3`), and
the save stage computes its write path with `os.path.join`, which discards
the working directory for an absolute second argument — the file is written
to `/etc/passwd.mp3`, outside the per-request working directory, as the
handler's trace of written paths confirms. -/
theorem claim_C9_code_bug :
    validate_file ⟨some "/etc/passwd.mp3", some "audio/mpeg", 10⟩ = none
    ∧ (save_file ⟨some "/etc/passwd.mp3", some "audio/mpeg", 10⟩
        "/tmp/transcriber_runs/run1" 0).1 = some "/etc/passwd.mp3"
    ∧ List.isPrefixOf "/tmp/transcriber_runs/run1/".data "/etc/passwd.mp3".data = false
    ∧ (handle_transcription ⟨"run1", none, fun _ => TResult.ok "", none⟩
        (some [⟨some "/etc/passwd.mp3", some "audio/mpeg", 10⟩])
        "en" (some "Bearer k")).savedPaths = ["/etc/passwd.mp3"] := by
  decide
